import Mathlib

/-!
Verification development for the AORA breathwork app's session core:
the breath-phase timing state machine of `SessionScreen`
(src/components/ControlPanel.tsx), the snapshot auto-save hook and
saved-session resolver (src/components/SessionAutoSave.tsx), and the
resume wiring in `App.tsx`.

Modelling conventions:
* JS `number` time values are embedded as exact rationals (`ℚ`) for
  second-valued durations and as integers (`ℤ`) for epoch-millisecond
  timestamps; `Math.floor(x / 1000)` becomes `Int.fdiv _ 1000`.
* The per-100 ms countdown interval of `runPhase` is collapsed into a
  delta-driven `countdownTick`: one firing subtracts its delta from
  `timeRemaining` and, on reaching `<= 0`, advances through the fixed
  inhale → hold → exhale → pause order, skipping phases whose configured
  duration is exactly `0` (the `if (duration === 0) return Promise.resolve()`
  guard of `runPhase`) and incrementing the cycle counter when moving past
  `pause` (the `setCycles(prev => prev + 1)` at the end of `runCycle`).
  Overshoot past a phase boundary is discarded: the next phase always
  restarts at its full configured duration, exactly as `runPhase` does.
* The TypeScript cast `JSON.parse(saved) as SavedSession` performs no
  runtime validation, so a parsed stored value is embedded as a record of
  optional fields (`RawSaved`); JS arithmetic on a missing field yields
  `NaN`, and `NaN < 24` is `false`, which `freshCheck` mirrors.
-/

set_option maxRecDepth 8000

namespace Aora

/-- The four breath phases, in the fixed order driven by `runCycle`. -/
inductive Phase
  | inhale
  | hold
  | exhale
  | pause
deriving DecidableEq, Repr

/-- Successor in the fixed inhale → hold → exhale → pause → inhale order. -/
def Phase.next : Phase → Phase
  | .inhale => .hold
  | .hold => .exhale
  | .exhale => .pause
  | .pause => .inhale

/-- `BreathPattern` from ControlPanel.tsx: four durations in seconds. -/
structure BreathPattern where
  inhale : ℚ
  hold : ℚ
  exhale : ℚ
  pause : ℚ
deriving DecidableEq, Repr

/-- Duration the pattern assigns to a phase (`pattern[currentPhase]`). -/
def BreathPattern.durOf (pat : BreathPattern) : Phase → ℚ
  | .inhale => pat.inhale
  | .hold => pat.hold
  | .exhale => pat.exhale
  | .pause => pat.pause

/-- All four durations are non-negative. -/
def Nonneg (pat : BreathPattern) : Prop :=
  0 ≤ pat.inhale ∧ 0 ≤ pat.hold ∧ 0 ≤ pat.exhale ∧ 0 ≤ pat.pause

instance (pat : BreathPattern) : Decidable (Nonneg pat) := by
  unfold Nonneg; infer_instance

/-- Total duration of one full cycle (`totalCycleTime` in SessionScreen). -/
def total (pat : BreathPattern) : ℚ :=
  pat.inhale + pat.hold + pat.exhale + pat.pause

/-- The `useState` fields of `SessionScreen` plus the `startTimeRef`
wall-clock anchor (epoch ms).  `sessionDuration` is the integer-second
elapsed display, `timeRemaining` the in-phase countdown. -/
structure SessionState where
  currentPhase : Phase
  isActive : Bool
  cycles : ℕ
  timeRemaining : ℚ
  sessionDuration : ℤ
  startTime : ℤ
deriving DecidableEq, Repr

/-- Try candidate `(phase, cycleIncrement)` pairs in order, landing on the
first whose configured duration is nonzero — the unrolling of `runCycle`'s
fixed await sequence, where `runPhase` instantly resolves (is skipped, with
no tick and no `setCurrentPhase`) exactly when its duration is `0`. -/
def tryPhases (pat : BreathPattern) : List (Phase × ℕ) → Phase × ℕ → Phase × ℕ
  | [], dflt => dflt
  | c :: rest, dflt => if pat.durOf c.1 = 0 then tryPhases pat rest dflt else c

/-- First phase of a cycle that actually runs, with its (always `0`)
cycle increment: `runCycle` tries inhale, hold, exhale, pause in order.
The default is unreachable for patterns with a nonzero duration. -/
def firstPosW (pat : BreathPattern) : Phase × ℕ :=
  tryPhases pat
    [(Phase.inhale, 0), (Phase.hold, 0), (Phase.exhale, 0), (Phase.pause, 0)]
    (Phase.inhale, 0)

/-- The phase a freshly mounted `SessionScreen` lands on. -/
def firstPos (pat : BreathPattern) : Phase := (firstPosW pat).1

/-- Where a finished phase hands over to: the next phase with nonzero
duration, together with the number of cycle-counter increments picked up on
the way (one whenever the hand-over moves past `pause`, i.e. when
`runCycle` reaches its trailing `setCycles(prev => prev + 1)`). -/
def phaseAdvance (pat : BreathPattern) : Phase → Phase × ℕ
  | .inhale =>
      tryPhases pat
        [(Phase.hold, 0), (Phase.exhale, 0), (Phase.pause, 0), (Phase.inhale, 1)]
        (Phase.inhale, 1)
  | .hold =>
      tryPhases pat
        [(Phase.exhale, 0), (Phase.pause, 0), (Phase.inhale, 1), (Phase.hold, 1)]
        (Phase.inhale, 1)
  | .exhale =>
      tryPhases pat
        [(Phase.pause, 0), (Phase.inhale, 1), (Phase.hold, 1), (Phase.exhale, 1)]
        (Phase.inhale, 1)
  | .pause =>
      tryPhases pat
        [(Phase.inhale, 1), (Phase.hold, 1), (Phase.exhale, 1), (Phase.pause, 1)]
        (Phase.inhale, 1)

/-- One firing of the `runPhase` countdown, collapsed to a delta `δ`:
`remaining -= δ; if (remaining <= 0) resolve()` where resolving enters the
next nonzero-duration phase at its full configured duration (overshoot is
discarded) and bumps `cycles` when the hand-over wraps past `pause`. -/
def countdownTick (pat : BreathPattern) (δ : ℚ) (s : SessionState) : SessionState :=
  if s.timeRemaining - δ ≤ 0 then
    { s with
      currentPhase := (phaseAdvance pat s.currentPhase).1
      timeRemaining := pat.durOf (phaseAdvance pat s.currentPhase).1
      cycles := s.cycles + (phaseAdvance pat s.currentPhase).2 }
  else
    { s with timeRemaining := s.timeRemaining - δ }

/-- Apply a sequence of countdown firings in order. -/
def ticks (pat : BreathPattern) : List ℚ → SessionState → SessionState
  | [], s => s
  | δ :: ds, s => ticks pat ds (countdownTick pat δ s)

/-- Mounting `SessionScreen`: `useState` initialisers
(`isActive = true`, `cycles = 0`, `sessionDuration = 0`,
`startTimeRef = Date.now()`) followed by the first `runCycle`, which lands
on the first nonzero-duration phase at its full duration.  There is no
validation of the pattern anywhere on this path. -/
def sessionStart (pat : BreathPattern) (now : ℤ) : SessionState :=
  { currentPhase := firstPos pat
    isActive := true
    cycles := 0
    timeRemaining := pat.durOf (firstPos pat)
    sessionDuration := 0
    startTime := now }

/-- One firing of the 1-second session-duration interval:
`setSessionDuration(Math.floor((Date.now() - startTimeRef.current) / 1000))`.
The interval is installed with an empty dependency list and never consults
`isActive`. -/
def durationTick (now : ℤ) (s : SessionState) : SessionState :=
  { s with sessionDuration := (now - s.startTime).fdiv 1000 }

/-- `toggleSession`: flips `isActive`; when resuming
(current `isActive` is `false`) it rebases `startTimeRef` to
`Date.now() - sessionDuration * 1000`. -/
def toggleSession (now : ℤ) (s : SessionState) : SessionState :=
  if s.isActive then { s with isActive := false }
  else { s with isActive := true, startTime := now - s.sessionDuration * 1000 }

/-- `totalCycles` state of SessionScreen: `useState(10)`, never updated. -/
def totalCycles : ℕ := 10

/-- The `progress` object SessionScreen passes to `saveSession`. -/
structure SessionProgress where
  cyclesCompleted : ℕ
  totalCycles : ℕ
  timeElapsed : ℤ
  currentPhase : Phase
  phaseTimeRemaining : ℚ
deriving DecidableEq, Repr

/-- The persisted `SavedSession` value of SessionAutoSave.tsx. -/
structure SavedSession where
  id : String
  timestamp : ℤ
  pattern : BreathPattern
  patternName : Option String
  progress : SessionProgress
  duration : ℤ
deriving DecidableEq, Repr

/-- `saveSession` from `useSessionAutoSave`: stamps the snapshot with the
current time and stores it. -/
def saveSession (now : ℤ) (pattern : BreathPattern) (patternName : Option String)
    (progress : SessionProgress) (duration : ℤ) : SavedSession :=
  { id := toString now
    timestamp := now
    pattern := pattern
    patternName := patternName
    progress := progress
    duration := duration }

/-- The progress record SessionScreen snapshots from its current state. -/
def sessionProgressOf (s : SessionState) : SessionProgress :=
  { cyclesCompleted := s.cycles
    totalCycles := totalCycles
    timeElapsed := s.sessionDuration
    currentPhase := s.currentPhase
    phaseTimeRemaining := s.timeRemaining }

/-- The 5-second auto-save effect: installs the saving interval only when
`isActive && cycles > 0`; otherwise no write happens. -/
def autoSaveWrite (now : ℤ) (pat : BreathPattern) (name : Option String)
    (s : SessionState) : Option SavedSession :=
  if s.isActive ∧ 0 < s.cycles then
    some (saveSession now pat name (sessionProgressOf s) s.sessionDuration)
  else none

/-- The `beforeunload` handler: writes only when `isActive && cycles > 0`. -/
def beforeUnloadWrite (now : ℤ) (pat : BreathPattern) (name : Option String)
    (s : SessionState) : Option SavedSession :=
  if s.isActive ∧ 0 < s.cycles then
    some (saveSession now pat name (sessionProgressOf s) s.sessionDuration)
  else none

/-- The `visibilitychange` handler: writes only when
`document.hidden && isActive && cycles > 0`. -/
def visibilityWrite (hidden : Bool) (now : ℤ) (pat : BreathPattern)
    (name : Option String) (s : SessionState) : Option SavedSession :=
  if hidden ∧ s.isActive ∧ 0 < s.cycles then
    some (saveSession now pat name (sessionProgressOf s) s.sessionDuration)
  else none

/-- `App.handleResumeSession` followed by the remount of `SessionScreen`:
only `savedSession.pattern` is carried over (`setCustomPattern`); the saved
`progress` is never read, so the screen mounts with its fresh `useState`
initialisers. -/
def handleResumeSession (saved : SavedSession) (now : ℤ) : SessionState :=
  sessionStart saved.pattern now

/-- A stored value as `JSON.parse` sees it: the TypeScript cast
`as SavedSession` does not validate, so every field may be absent. -/
structure RawSaved where
  timestamp : Option ℤ
  pattern : Option BreathPattern
  patternName : Option String
  progress : Option SessionProgress
  duration : Option ℤ
deriving DecidableEq, Repr

/-- A raw localStorage value: either text that fails `JSON.parse` (the
`catch` branch) or a parsed object with possibly-missing fields. -/
inductive StoredValue
  | malformedJson
  | parsed (raw : RawSaved)
deriving DecidableEq, Repr

/-- `(Date.now() - session.timestamp) / (1000 * 60 * 60)` in hours. -/
def hoursSince (now t : ℤ) : ℚ := ((now - t : ℤ) : ℚ) / (1000 * 60 * 60)

/-- The freshness test `hoursSinceLastSession < 24`.  When `timestamp` is
missing, JS computes `NaN` and `NaN < 24` is `false`, so the comparison
fails and control reaches the clean-up branch. -/
def freshCheck (now : ℤ) : Option ℤ → Bool
  | none => false
  | some t => decide (hoursSince now t < 24)

/-- `checkForSavedSession` of SessionAutoSave.tsx.  Input: current time and
the stored value (if any).  Output: the resume offer and the store contents
afterwards.  Malformed JSON hits the `catch` → `clearSavedSession`; a stale
(or timestamp-less) snapshot hits the `else` → `clearSavedSession`; a fresh
snapshot is offered and left in the store. -/
def checkForSavedSession (now : ℤ) :
    Option StoredValue → Option RawSaved × Option StoredValue
  | none => (none, none)
  | some StoredValue.malformedJson => (none, none)
  | some (StoredValue.parsed raw) =>
      if freshCheck now raw.timestamp then
        (some raw, some (StoredValue.parsed raw))
      else (none, none)

/-- A tick sequence that never overshoots a phase boundary: every delta is
positive and no larger than the countdown remaining at its point of
application.  The code's uniform 100 ms firings on patterns whose durations
are multiples of 0.1 s are of this shape. -/
def noOvershoot (pat : BreathPattern) : List ℚ → SessionState → Bool
  | [], _ => true
  | δ :: ds, s =>
      decide (0 < δ) && decide (δ ≤ s.timeRemaining) &&
        noOvershoot pat ds (countdownTick pat δ s)

/-- Total configured duration of the phases after `p` in the current cycle. -/
def sumAfter (pat : BreathPattern) : Phase → ℚ
  | .inhale => pat.hold + pat.exhale + pat.pause
  | .hold => pat.exhale + pat.pause
  | .exhale => pat.pause
  | .pause => 0

/-- Time left until the current cycle's trailing `setCycles` increment. -/
def cycleTimeLeft (pat : BreathPattern) (s : SessionState) : ℚ :=
  s.timeRemaining + sumAfter pat s.currentPhase

/-- Box breathing, the default pattern of `ControlPanel` / SessionScreen. -/
def box : BreathPattern := ⟨4, 4, 4, 4⟩

/-- The 4·7·8 preset from the exercise library (zero-duration pause). -/
def p478 : BreathPattern := ⟨4, 7, 8, 0⟩

/-- A saved snapshot taken mid-session: 3 cycles done, mid-exhale, 42 s in. -/
def demoSaved : SavedSession :=
  { id := "1"
    timestamp := 0
    pattern := box
    patternName := none
    progress :=
      { cyclesCompleted := 3
        totalCycles := 10
        timeElapsed := 42
        currentPhase := Phase.exhale
        phaseTimeRemaining := 2 }
    duration := 42 }

/-- Claim C1 is violated by the code: `handleResumeSession` passes only the
snapshot's `pattern` to the remounted `SessionScreen`, so the "resumed"
engine starts at phase inhale, cycle count 0 and elapsed time 0 instead of
the snapshotted progress (here 3 cycles, mid-exhale, 42 s elapsed). -/
theorem resume_restarts_fresh :
    (handleResumeSession demoSaved 100000).currentPhase = Phase.inhale ∧
    (handleResumeSession demoSaved 100000).cycles = 0 ∧
    (handleResumeSession demoSaved 100000).sessionDuration = 0 ∧
    demoSaved.progress.currentPhase = Phase.exhale ∧
    demoSaved.progress.cyclesCompleted = 3 ∧
    demoSaved.progress.timeElapsed = 42 := by
  refine ⟨?_, rfl, rfl, rfl, rfl, rfl⟩
  norm_num [handleResumeSession, sessionStart, firstPos, firstPosW, tryPhases,
    demoSaved, box, BreathPattern.durOf]

/-- Claim C3 (amended): starting a session performs no validation at all —
for every pattern (all-zero and negative-duration ones included) a running
session is created with cycle count 0 and elapsed time 0; the initial phase
is the first phase with nonzero configured duration, which is `inhale` with
`phaseTimeRemaining` equal to the inhale duration whenever that duration is
nonzero. -/
theorem start_no_validation (pat : BreathPattern) (now : ℤ) :
    (sessionStart pat now).isActive = true ∧
    (sessionStart pat now).cycles = 0 ∧
    (sessionStart pat now).sessionDuration = 0 ∧
    (pat.inhale ≠ 0 →
      (sessionStart pat now).currentPhase = Phase.inhale ∧
      (sessionStart pat now).timeRemaining = pat.inhale) := by
  refine ⟨rfl, rfl, rfl, fun h => ?_⟩
  constructor <;>
    simp [sessionStart, firstPos, firstPosW, tryPhases, BreathPattern.durOf, h]

/-- Witness for `start_no_validation` at the box pattern. -/
theorem start_no_validation_w :
    box.inhale ≠ 0 ∧
    (sessionStart box 0).isActive = true ∧
    (sessionStart box 0).currentPhase = Phase.inhale ∧
    (sessionStart box 0).timeRemaining = box.inhale := by
  have h4 : box.inhale ≠ 0 := by norm_num [box]
  have h := start_no_validation box 0
  exact ⟨h4, h.1, (h.2.2.2 h4).1, (h.2.2.2 h4).2⟩

/-- Starting with the all-zero pattern, or with a negative inhale duration,
creates a running session: no `InvalidPatternError` exists on this code
path, contradicting Claim C3 as stated. -/
theorem start_all_zero_counter :
    (sessionStart ⟨0, 0, 0, 0⟩ 0).isActive = true ∧
    (sessionStart ⟨-1, 4, 4, 4⟩ 0).isActive = true :=
  ⟨rfl, rfl⟩

/-- Claim C4 is violated by the code: the 1-second duration interval is
installed with an empty dependency list and never consults `isActive`, so
`sessionDuration` keeps tracking wall-clock time while paused (5 s at the
pause grows to 15 s after 10 paused seconds), and the `startTimeRef` rebase
in `toggleSession` on resume then preserves the paused time (16 s at one
second after the resume). -/
theorem paused_elapsed_advances :
    (toggleSession 5000 (durationTick 5000 (sessionStart box 0))).isActive = false ∧
    (toggleSession 5000 (durationTick 5000 (sessionStart box 0))).sessionDuration = 5 ∧
    (durationTick 15000 (toggleSession 5000 (durationTick 5000
        (sessionStart box 0)))).sessionDuration = 15 ∧
    (durationTick 15000 (toggleSession 5000 (durationTick 5000
        (sessionStart box 0)))).isActive = false ∧
    (durationTick 16000 (toggleSession 15000 (durationTick 15000 (toggleSession 5000
        (durationTick 5000 (sessionStart box 0)))))).sessionDuration = 16 := by
  norm_num [durationTick, toggleSession, sessionStart]
  refine ⟨by decide, by decide, ?_⟩
  decide

/-- Claim C7: the saved-session resolver offers a stored snapshot exactly
when `(now - timestamp) / 3600000 < 24`; otherwise it deletes it from the
store and returns nothing; an empty store yields nothing; a snapshot aged
24 h minus 1 ms is offered, one aged 24 h plus 1 ms is deleted. -/
theorem freshness_window :
    (∀ now : ℤ, checkForSavedSession now none = (none, none)) ∧
    (∀ (now t : ℤ) (raw : RawSaved), raw.timestamp = some t →
      ((hoursSince now t < 24 →
          checkForSavedSession now (some (StoredValue.parsed raw))
            = (some raw, some (StoredValue.parsed raw))) ∧
       (¬ hoursSince now t < 24 →
          checkForSavedSession now (some (StoredValue.parsed raw)) = (none, none)))) ∧
    (∀ (now : ℤ) (raw : RawSaved), raw.timestamp = some (now - (86400000 - 1)) →
      (checkForSavedSession now (some (StoredValue.parsed raw))).1 = some raw) ∧
    (∀ (now : ℤ) (raw : RawSaved), raw.timestamp = some (now - (86400000 + 1)) →
      checkForSavedSession now (some (StoredValue.parsed raw)) = (none, none)) := by
  refine ⟨fun now => rfl, ?_, ?_, ?_⟩
  · intro now t raw h
    constructor
    · intro hf
      simp [checkForSavedSession, freshCheck, h, hf]
    · intro hf
      simp [checkForSavedSession, freshCheck, h, hf]
  · intro now raw h
    have h2 : raw.timestamp = some (now - 86399999) := by rw [h]; norm_num
    have hfr : hoursSince now (now - 86399999) < 24 := by
      have h1 : now - (now - 86399999) = (86399999 : ℤ) := by ring
      unfold hoursSince
      rw [h1]
      norm_num
    simp [checkForSavedSession, freshCheck, h2, hfr]
  · intro now raw h
    have h2 : raw.timestamp = some (now - 86400001) := by rw [h]; norm_num
    have hfr : ¬ hoursSince now (now - 86400001) < 24 := by
      have h1 : now - (now - 86400001) = (86400001 : ℤ) := by ring
      unfold hoursSince
      rw [h1]
      norm_num
    simp [checkForSavedSession, freshCheck, h2, hfr]

/-- Witness for `freshness_window` at concrete times: stored at time 0,
checked 1 hour later the snapshot is offered; checked 25 hours later it is
deleted. -/
theorem freshness_window_w :
    checkForSavedSession 3600000
        (some (StoredValue.parsed ⟨some 0, some box, none, none, none⟩))
      = (some ⟨some 0, some box, none, none, none⟩,
         some (StoredValue.parsed ⟨some 0, some box, none, none, none⟩)) ∧
    checkForSavedSession 90000000
        (some (StoredValue.parsed ⟨some 0, some box, none, none, none⟩))
      = (none, none) := by
  have h := freshness_window.2.1
  constructor
  · refine (h 3600000 0 ⟨some 0, some box, none, none, none⟩ rfl).1 ?_
    unfold hoursSince
    norm_num
  · refine (h 90000000 0 ⟨some 0, some box, none, none, none⟩ rfl).2 ?_
    unfold hoursSince
    norm_num

/-- Claim C9 (amended): a stored value that fails JSON parsing is deleted
and ignored; a parsed value whose `timestamp` field is missing is also
deleted and ignored (its freshness comparison is `NaN < 24`, which is
false); but a parsed value carrying a fresh timestamp is offered for
resume regardless of any other missing required fields. -/
theorem malformed_snapshot_handling :
    (∀ now : ℤ,
      checkForSavedSession now (some StoredValue.malformedJson) = (none, none)) ∧
    (∀ (now : ℤ) (raw : RawSaved), raw.timestamp = none →
      checkForSavedSession now (some (StoredValue.parsed raw)) = (none, none)) ∧
    (∀ (now t : ℤ) (raw : RawSaved), raw.timestamp = some t →
      hoursSince now t < 24 →
      (checkForSavedSession now (some (StoredValue.parsed raw))).1 = some raw) := by
  refine ⟨fun now => rfl, ?_, ?_⟩
  · intro now raw h
    simp [checkForSavedSession, freshCheck, h]
  · intro now t raw h hf
    simp [checkForSavedSession, freshCheck, h, hf]

/-- Witness for `malformed_snapshot_handling`: a timestamp-less parsed
value is cleared; a fresh snapshot is offered. -/
theorem malformed_snapshot_handling_w :
    checkForSavedSession 0
        (some (StoredValue.parsed ⟨none, some box, none, none, none⟩))
      = (none, none) ∧
    (checkForSavedSession 0
        (some (StoredValue.parsed ⟨some 0, some box, none, none, none⟩))).1
      = some ⟨some 0, some box, none, none, none⟩ := by
  constructor
  · exact malformed_snapshot_handling.2.1 0 ⟨none, some box, none, none, none⟩ rfl
  · refine malformed_snapshot_handling.2.2 0 0 ⟨some 0, some box, none, none, none⟩ rfl ?_
    unfold hoursSince
    norm_num

/-- A parsed stored value with a fresh timestamp but every other required
field missing (no pattern, no progress, no duration) is offered for resume
and kept in the store — it is not treated as absent, contradicting Claim C9
as stated. -/
theorem fresh_missing_fields_counter :
    (checkForSavedSession 0
        (some (StoredValue.parsed ⟨some 0, none, none, none, none⟩))).1
      = some ⟨some 0, none, none, none, none⟩ ∧
    (checkForSavedSession 0
        (some (StoredValue.parsed ⟨some 0, none, none, none, none⟩))).2 ≠ none := by
  have hf : hoursSince 0 0 < 24 := by
    unfold hoursSince
    norm_num
  constructor
  · simp [checkForSavedSession, freshCheck, hf]
  · simp [checkForSavedSession, freshCheck, hf]

/-- Claim C8 (amended): `toggleSession` is a toggle, not an idempotent
pause: from a running session one call pauses, and a second call resumes
(rebasing `startTimeRef` to `now - sessionDuration * 1000`) rather than
leaving the session paused. -/
theorem toggle_involution (s : SessionState) (n1 n2 : ℤ) (h : s.isActive = true) :
    (toggleSession n1 s).isActive = false ∧
    (toggleSession n2 (toggleSession n1 s)).isActive = true ∧
    (toggleSession n2 (toggleSession n1 s)).startTime
      = n2 - (toggleSession n1 s).sessionDuration * 1000 := by
  simp [toggleSession, h]

/-- Witness for `toggle_involution` on a freshly started box session. -/
theorem toggle_involution_w :
    (sessionStart box 0).isActive = true ∧
    (toggleSession 1000 (sessionStart box 0)).isActive = false ∧
    (toggleSession 2000 (toggleSession 1000 (sessionStart box 0))).isActive = true := by
  have h := toggle_involution (sessionStart box 0) 1000 2000 rfl
  exact ⟨rfl, h.1, h.2.1⟩

/-- Calling `toggleSession` twice from a running session yields a running
session again, not the paused session a single call yields — pause is not
idempotent, contradicting Claim C8 as stated. -/
theorem toggle_not_idempotent_counter :
    (toggleSession 1000 (sessionStart box 0)).isActive = false ∧
    (toggleSession 2000 (toggleSession 1000 (sessionStart box 0))).isActive = true ∧
    toggleSession 2000 (toggleSession 1000 (sessionStart box 0))
      ≠ toggleSession 1000 (sessionStart box 0) := by
  refine ⟨by simp [toggleSession, sessionStart], by simp [toggleSession, sessionStart], ?_⟩
  intro h
  have hh := congrArg SessionState.isActive h
  simp [toggleSession, sessionStart] at hh

/-- Claim C10: each of the three snapshot writes (the 5-second auto-save
interval, the `beforeunload` handler and the `visibilitychange` handler)
happens only when the session is active with `cycles > 0`; in particular
with `cycles = 0` none of them writes, so a session interrupted during its
first cycle leaves no snapshot and is never offered for resume. -/
theorem save_requires_cycles :
    (∀ (now : ℤ) (pat : BreathPattern) (name : Option String) (s : SessionState),
       (autoSaveWrite now pat name s).isSome → s.isActive = true ∧ 0 < s.cycles) ∧
    (∀ (now : ℤ) (pat : BreathPattern) (name : Option String) (s : SessionState),
       (beforeUnloadWrite now pat name s).isSome → s.isActive = true ∧ 0 < s.cycles) ∧
    (∀ (hidden : Bool) (now : ℤ) (pat : BreathPattern) (name : Option String)
       (s : SessionState),
       (visibilityWrite hidden now pat name s).isSome →
         hidden = true ∧ s.isActive = true ∧ 0 < s.cycles) ∧
    (∀ (hidden : Bool) (now : ℤ) (pat : BreathPattern) (name : Option String)
       (s : SessionState), s.cycles = 0 →
         autoSaveWrite now pat name s = none ∧
         beforeUnloadWrite now pat name s = none ∧
         visibilityWrite hidden now pat name s = none) := by
  refine ⟨?_, ?_, ?_, ?_⟩
  · intro now pat name s h
    by_cases hc : s.isActive ∧ 0 < s.cycles
    · exact hc
    · simp [autoSaveWrite, hc] at h
  · intro now pat name s h
    by_cases hc : s.isActive ∧ 0 < s.cycles
    · exact hc
    · simp [beforeUnloadWrite, hc] at h
  · intro hidden now pat name s h
    by_cases hc : hidden ∧ s.isActive ∧ 0 < s.cycles
    · exact ⟨hc.1, hc.2⟩
    · simp [visibilityWrite, hc] at h
  · intro hidden now pat name s hc
    refine ⟨?_, ?_, ?_⟩ <;> simp [autoSaveWrite, beforeUnloadWrite, visibilityWrite, hc]

/-- Witness for `save_requires_cycles`: on a freshly started session
(zero completed cycles) none of the three handlers writes a snapshot. -/
theorem save_requires_cycles_w :
    (sessionStart box 0).cycles = 0 ∧
    autoSaveWrite 0 box none (sessionStart box 0) = none ∧
    beforeUnloadWrite 0 box none (sessionStart box 0) = none ∧
    visibilityWrite true 0 box none (sessionStart box 0) = none := by
  have h := save_requires_cycles.2.2.2 true 0 box none (sessionStart box 0) rfl
  exact ⟨rfl, h.1, h.2.1, h.2.2⟩

lemma durOf_nonneg (pat : BreathPattern) (hn : Nonneg pat) (p : Phase) :
    0 ≤ pat.durOf p := by
  obtain ⟨h1, h2, h3, h4⟩ := hn
  cases p <;> assumption

lemma sumAfter_nonneg (pat : BreathPattern) (hn : Nonneg pat) (p : Phase) :
    0 ≤ sumAfter pat p := by
  obtain ⟨h1, h2, h3, h4⟩ := hn
  cases p <;> simp only [sumAfter] <;> linarith

lemma firstPos_dur (pat : BreathPattern) (ht : total pat ≠ 0) :
    pat.durOf (firstPos pat) ≠ 0 := by
  by_cases h1 : pat.inhale = 0
  · by_cases h2 : pat.hold = 0
    · by_cases h3 : pat.exhale = 0
      · by_cases h4 : pat.pause = 0
        · exact absurd (by simp [total, h1, h2, h3, h4]) ht
        · simp [firstPos, firstPosW, tryPhases, BreathPattern.durOf, h1, h2, h3, h4]
      · simp [firstPos, firstPosW, tryPhases, BreathPattern.durOf, h1, h2, h3]
    · simp [firstPos, firstPosW, tryPhases, BreathPattern.durOf, h1, h2]
  · simp [firstPos, firstPosW, tryPhases, BreathPattern.durOf, h1]

lemma firstPos_total (pat : BreathPattern) :
    pat.durOf (firstPos pat) + sumAfter pat (firstPos pat) = total pat := by
  by_cases h1 : pat.inhale = 0
  · by_cases h2 : pat.hold = 0
    · by_cases h3 : pat.exhale = 0
      · by_cases h4 : pat.pause = 0
        · have hf : firstPos pat = Phase.inhale := by
            simp [firstPos, firstPosW, tryPhases, BreathPattern.durOf, h1, h2, h3, h4]
          rw [hf]
          simp only [BreathPattern.durOf, sumAfter, total]
          ring
        · have hf : firstPos pat = Phase.pause := by
            simp [firstPos, firstPosW, tryPhases, BreathPattern.durOf, h1, h2, h3, h4]
          rw [hf]
          simp only [BreathPattern.durOf, sumAfter, total, h1, h2, h3]
          ring
      · have hf : firstPos pat = Phase.exhale := by
          simp [firstPos, firstPosW, tryPhases, BreathPattern.durOf, h1, h2, h3]
        rw [hf]
        simp only [BreathPattern.durOf, sumAfter, total, h1, h2]
        ring
    · have hf : firstPos pat = Phase.hold := by
        simp [firstPos, firstPosW, tryPhases, BreathPattern.durOf, h1, h2]
      rw [hf]
      simp only [BreathPattern.durOf, sumAfter, total, h1]
      ring
  · have hf : firstPos pat = Phase.inhale := by
      simp [firstPos, firstPosW, tryPhases, BreathPattern.durOf, h1]
    rw [hf]
    simp only [BreathPattern.durOf, sumAfter, total]
    ring

lemma adv_pos (pat : BreathPattern) (p : Phase) (hs : sumAfter pat p ≠ 0) :
    (phaseAdvance pat p).2 = 0 ∧
    pat.durOf (phaseAdvance pat p).1 ≠ 0 ∧
    pat.durOf (phaseAdvance pat p).1 + sumAfter pat (phaseAdvance pat p).1
      = sumAfter pat p := by
  cases p with
  | inhale =>
      by_cases h1 : pat.hold = 0
      · by_cases h2 : pat.exhale = 0
        · by_cases h3 : pat.pause = 0
          · exact absurd (by simp [sumAfter, h1, h2, h3]) hs
          · have hadv : phaseAdvance pat Phase.inhale = (Phase.pause, 0) := by
              simp [phaseAdvance, tryPhases, BreathPattern.durOf, h1, h2, h3]
            rw [hadv]
            refine ⟨rfl, h3, ?_⟩
            simp only [BreathPattern.durOf, sumAfter, h1, h2]
            ring
        · have hadv : phaseAdvance pat Phase.inhale = (Phase.exhale, 0) := by
            simp [phaseAdvance, tryPhases, BreathPattern.durOf, h1, h2]
          rw [hadv]
          refine ⟨rfl, h2, ?_⟩
          simp only [BreathPattern.durOf, sumAfter, h1]
          ring
      · have hadv : phaseAdvance pat Phase.inhale = (Phase.hold, 0) := by
          simp [phaseAdvance, tryPhases, BreathPattern.durOf, h1]
        rw [hadv]
        refine ⟨rfl, h1, ?_⟩
        simp only [BreathPattern.durOf, sumAfter]
        ring
  | hold =>
      by_cases h2 : pat.exhale = 0
      · by_cases h3 : pat.pause = 0
        · exact absurd (by simp [sumAfter, h2, h3]) hs
        · have hadv : phaseAdvance pat Phase.hold = (Phase.pause, 0) := by
            simp [phaseAdvance, tryPhases, BreathPattern.durOf, h2, h3]
          rw [hadv]
          refine ⟨rfl, h3, ?_⟩
          simp only [BreathPattern.durOf, sumAfter, h2]
          ring
      · have hadv : phaseAdvance pat Phase.hold = (Phase.exhale, 0) := by
          simp [phaseAdvance, tryPhases, BreathPattern.durOf, h2]
        rw [hadv]
        refine ⟨rfl, h2, ?_⟩
        simp only [BreathPattern.durOf, sumAfter]
  | exhale =>
      by_cases h3 : pat.pause = 0
      · exact absurd (by simp [sumAfter, h3]) hs
      · have hadv : phaseAdvance pat Phase.exhale = (Phase.pause, 0) := by
          simp [phaseAdvance, tryPhases, BreathPattern.durOf, h3]
        rw [hadv]
        refine ⟨rfl, h3, ?_⟩
        simp only [BreathPattern.durOf, sumAfter]
        ring
  | pause =>
      exact absurd (by simp [sumAfter]) hs

lemma adv_wrap (pat : BreathPattern) (hn : Nonneg pat) (ht : total pat ≠ 0)
    (p : Phase) (hs : sumAfter pat p = 0) :
    phaseAdvance pat p = (firstPos pat, 1) := by
  obtain ⟨g1, g2, g3, g4⟩ := hn
  cases p with
  | inhale =>
      simp only [sumAfter] at hs
      have h2 : pat.hold = 0 := by linarith
      have h3 : pat.exhale = 0 := by linarith
      have h4 : pat.pause = 0 := by linarith
      have h1 : pat.inhale ≠ 0 := fun h => ht (by simp [total, h, h2, h3, h4])
      simp [phaseAdvance, tryPhases, firstPos, firstPosW, BreathPattern.durOf,
        h1, h2, h3, h4]
  | hold =>
      simp only [sumAfter] at hs
      have h3 : pat.exhale = 0 := by linarith
      have h4 : pat.pause = 0 := by linarith
      by_cases h1 : pat.inhale = 0
      · have h2 : pat.hold ≠ 0 := fun h => ht (by simp [total, h1, h, h3, h4])
        simp [phaseAdvance, tryPhases, firstPos, firstPosW, BreathPattern.durOf,
          h1, h2, h3, h4]
      · simp [phaseAdvance, tryPhases, firstPos, firstPosW, BreathPattern.durOf,
          h1, h3, h4]
  | exhale =>
      simp only [sumAfter] at hs
      by_cases h1 : pat.inhale = 0
      · by_cases h2 : pat.hold = 0
        · have h3 : pat.exhale ≠ 0 := fun h => ht (by simp [total, h1, h2, h, hs])
          simp [phaseAdvance, tryPhases, firstPos, firstPosW, BreathPattern.durOf,
            h1, h2, h3, hs]
        · simp [phaseAdvance, tryPhases, firstPos, firstPosW, BreathPattern.durOf,
            h1, h2, hs]
      · simp [phaseAdvance, tryPhases, firstPos, firstPosW, BreathPattern.durOf,
          h1, hs]
  | pause =>
      by_cases h1 : pat.inhale = 0
      · by_cases h2 : pat.hold = 0
        · by_cases h3 : pat.exhale = 0
          · have h4 : pat.pause ≠ 0 := fun h => ht (by simp [total, h1, h2, h3, h])
            simp [phaseAdvance, tryPhases, firstPos, firstPosW, BreathPattern.durOf,
              h1, h2, h3, h4]
          · simp [phaseAdvance, tryPhases, firstPos, firstPosW, BreathPattern.durOf,
              h1, h2, h3]
        · simp [phaseAdvance, tryPhases, firstPos, firstPosW, BreathPattern.durOf,
            h1, h2]
      · simp [phaseAdvance, tryPhases, firstPos, firstPosW, BreathPattern.durOf, h1]

lemma adv_dur (pat : BreathPattern) (hn : Nonneg pat) (ht : total pat ≠ 0)
    (p : Phase) : pat.durOf (phaseAdvance pat p).1 ≠ 0 := by
  by_cases hs : sumAfter pat p = 0
  · rw [adv_wrap pat hn ht p hs]
    exact firstPos_dur pat ht
  · exact (adv_pos pat p hs).2.1

lemma noOvershoot_sum_nonneg (pat : BreathPattern) :
    ∀ (ds : List ℚ) (s : SessionState),
      noOvershoot pat ds s = true → 0 ≤ ds.sum := by
  intro ds
  induction ds with
  | nil => intro s _; simp
  | cons δ ds ih =>
      intro s h
      simp only [noOvershoot, Bool.and_eq_true, decide_eq_true_eq] at h
      obtain ⟨⟨h1, _⟩, h3⟩ := h
      have h4 := ih _ h3
      simp only [List.sum_cons]
      linarith

lemma ticks_cycle (pat : BreathPattern) (hn : Nonneg pat) (ht : total pat ≠ 0) :
    ∀ (ds : List ℚ) (s : SessionState),
      0 < s.timeRemaining →
      noOvershoot pat ds s = true →
      ds.sum = cycleTimeLeft pat s →
      ticks pat ds s =
        { s with currentPhase := firstPos pat
                 timeRemaining := pat.durOf (firstPos pat)
                 cycles := s.cycles + 1 } := by
  intro ds
  induction ds with
  | nil =>
      intro s hr _ hsum
      exfalso
      have hsa := sumAfter_nonneg pat hn s.currentPhase
      simp only [List.sum_nil] at hsum
      unfold cycleTimeLeft at hsum
      linarith
  | cons δ ds ih =>
      intro s hr hno hsum
      simp only [noOvershoot, Bool.and_eq_true, decide_eq_true_eq] at hno
      obtain ⟨⟨hδ0, hδr⟩, hrest⟩ := hno
      have hsum' : δ + ds.sum = s.timeRemaining + sumAfter pat s.currentPhase := by
        simpa [cycleTimeLeft, List.sum_cons] using hsum
      by_cases hlt : δ < s.timeRemaining
      · -- the tick stays within the current phase
        have hcond : ¬ (s.timeRemaining - δ ≤ 0) := by simp; linarith
        have hstep : countdownTick pat δ s
            = { s with timeRemaining := s.timeRemaining - δ } := by
          simp [countdownTick, hcond]
        have hr2 : (0:ℚ) < s.timeRemaining - δ := by linarith
        have hno2 : noOvershoot pat ds
            { s with timeRemaining := s.timeRemaining - δ } = true := by
          rw [← hstep]; exact hrest
        have hsum2 : ds.sum
            = cycleTimeLeft pat { s with timeRemaining := s.timeRemaining - δ } := by
          simp only [cycleTimeLeft]
          linarith
        have hrec := ih { s with timeRemaining := s.timeRemaining - δ } hr2 hno2 hsum2
        simp only [ticks]
        rw [hstep, hrec]
      · -- the tick lands exactly on the phase boundary
        have hδeq : δ = s.timeRemaining := le_antisymm hδr (not_lt.mp hlt)
        have hcond : s.timeRemaining - δ ≤ 0 := by rw [hδeq]; simp
        have hstep : countdownTick pat δ s =
            { s with currentPhase := (phaseAdvance pat s.currentPhase).1
                     timeRemaining := pat.durOf (phaseAdvance pat s.currentPhase).1
                     cycles := s.cycles + (phaseAdvance pat s.currentPhase).2 } := by
          simp [countdownTick, hcond]
        by_cases hsa : sumAfter pat s.currentPhase = 0
        · -- the hand-over wraps past pause: this was the last tick
          have hsum0 : ds.sum = 0 := by
            rw [hsa] at hsum'
            linarith
          have hds : ds = [] := by
            cases ds with
            | nil => rfl
            | cons δ2 ds2 =>
                exfalso
                simp only [noOvershoot, Bool.and_eq_true, decide_eq_true_eq] at hrest
                obtain ⟨⟨hx, _⟩, hy⟩ := hrest
                have hz := noOvershoot_sum_nonneg pat ds2 _ hy
                simp only [List.sum_cons] at hsum0
                linarith
          subst hds
          simp only [ticks]
          rw [hstep, adv_wrap pat hn ht s.currentPhase hsa]
        · have hpos := adv_pos pat s.currentPhase hsa
          obtain ⟨hw0, hdne, hdsum⟩ := hpos
          have hd2 : (0:ℚ) < pat.durOf (phaseAdvance pat s.currentPhase).1 :=
            lt_of_le_of_ne (durOf_nonneg pat hn _) (Ne.symm hdne)
          have hno2 : noOvershoot pat ds
              { s with currentPhase := (phaseAdvance pat s.currentPhase).1
                       timeRemaining := pat.durOf (phaseAdvance pat s.currentPhase).1
                       cycles := s.cycles + (phaseAdvance pat s.currentPhase).2 }
              = true := by
            rw [← hstep]; exact hrest
          have hsum2 : ds.sum = cycleTimeLeft pat
              { s with currentPhase := (phaseAdvance pat s.currentPhase).1
                       timeRemaining := pat.durOf (phaseAdvance pat s.currentPhase).1
                       cycles := s.cycles + (phaseAdvance pat s.currentPhase).2 } := by
            simp only [cycleTimeLeft]
            linarith
          have hrec := ih _ hd2 hno2 hsum2
          simp only [ticks]
          rw [hstep, hrec]
          simp [hw0]

/-- Claim C5 (amended): the engine discards countdown overshoot at phase
boundaries, so the one-cycle property holds for tick sequences that hit
every boundary exactly: for every pattern with non-negative durations and
positive total `D`, any non-overshooting tick sequence whose deltas sum to
exactly `D`, applied from the top of a cycle, completes exactly one cycle
and returns the session to the top-of-cycle state (first nonzero-duration
phase, full phase duration remaining) with `cyclesCompleted` increased by
one.  The claim's concrete 0.1 s-tick scenario is an instance (see the
witness); its unrestricted universal form is false (see the
counterexample). -/
theorem one_cycle_of_ticks (pat : BreathPattern) (now : ℤ) (ds : List ℚ)
    (hn : Nonneg pat) (ht : 0 < total pat)
    (hno : noOvershoot pat ds (sessionStart pat now) = true)
    (hsum : ds.sum = total pat) :
    ticks pat ds (sessionStart pat now)
      = { sessionStart pat now with cycles := 1 } := by
  have htne : total pat ≠ 0 := ne_of_gt ht
  have hfd : pat.durOf (firstPos pat) ≠ 0 := firstPos_dur pat htne
  have hfd2 : 0 < pat.durOf (firstPos pat) :=
    lt_of_le_of_ne (durOf_nonneg pat hn _) (Ne.symm hfd)
  have hr : 0 < (sessionStart pat now).timeRemaining := hfd2
  have hsum2 : ds.sum = cycleTimeLeft pat (sessionStart pat now) := by
    rw [hsum]
    unfold cycleTimeLeft sessionStart
    exact (firstPos_total pat).symm
  have hrec := ticks_cycle pat hn htne ds (sessionStart pat now) hr hno hsum2
  rw [hrec]
  simp [sessionStart]

/-- Witness for `one_cycle_of_ticks`: the claim's concrete scenario — the
box pattern ticked 160 times by 0.1 s (16.0 s in total) completes exactly
one cycle, landing back on inhale with 4.0 s remaining. -/
theorem one_cycle_of_ticks_w :
    ticks box (List.replicate 160 (1/10)) (sessionStart box 0)
      = { sessionStart box 0 with cycles := 1 } ∧
    (ticks box (List.replicate 160 (1/10)) (sessionStart box 0)).currentPhase
      = Phase.inhale ∧
    (ticks box (List.replicate 160 (1/10)) (sessionStart box 0)).timeRemaining = 4 ∧
    (ticks box (List.replicate 160 (1/10)) (sessionStart box 0)).cycles = 1 := by
  have h := one_cycle_of_ticks box 0 (List.replicate 160 (1/10))
    (by norm_num [Nonneg, box])
    (by norm_num [total, box])
    (by norm_num [noOvershoot, countdownTick, phaseAdvance, tryPhases, box,
      BreathPattern.durOf, sessionStart, firstPos, firstPosW, List.replicate,
      decide_eq_true_eq])
    (by simp only [List.sum_replicate]; norm_num [total, box])
  refine ⟨h, ?_, ?_, ?_⟩ <;> rw [h] <;>
    norm_num [sessionStart, box, firstPos, firstPosW, tryPhases, BreathPattern.durOf]

/-- A single tick of 16 s on the box pattern sums to the full cycle length
`D = 16` but overshoots the inhale boundary; the overshoot is discarded and
the session lands in `hold` with no completed cycle — Claim C5's universal
form ("any sequence of tick calls whose deltas sum to exactly D") fails. -/
theorem overshoot_tick_counter :
    List.sum [(16:ℚ)] = total box ∧
    (ticks box [16] (sessionStart box 0)).cycles = 0 ∧
    (ticks box [16] (sessionStart box 0)).currentPhase = Phase.hold := by
  norm_num [ticks, countdownTick, phaseAdvance, tryPhases, box, BreathPattern.durOf,
    sessionStart, firstPos, firstPosW, total]

lemma reach_dur (pat : BreathPattern) (hn : Nonneg pat) (ht : total pat ≠ 0) :
    ∀ (ds : List ℚ) (s : SessionState), pat.durOf s.currentPhase ≠ 0 →
      pat.durOf ((ticks pat ds s).currentPhase) ≠ 0 := by
  intro ds
  induction ds with
  | nil => intro s h; exact h
  | cons δ ds ih =>
      intro s h
      simp only [ticks]
      apply ih
      unfold countdownTick
      by_cases hc : s.timeRemaining - δ ≤ 0
      · rw [if_pos hc]
        exact adv_dur pat hn ht s.currentPhase
      · rw [if_neg hc]
        exact h

/-- Claim C6: a phase with configured duration 0 is skipped instantly —
after any tick sequence from a fresh session the current phase always has
nonzero configured duration, so a zero-duration phase is never observable;
and concretely, on the 4·7·8 pattern (pause = 0) the tick that ends
`exhale` lands directly on the next cycle's `inhale` with the cycle counter
incremented, in the same logical instant. -/
theorem zero_phase_skipped :
    (∀ (pat : BreathPattern) (now : ℤ) (ds : List ℚ), Nonneg pat → 0 < total pat →
        0 < pat.durOf ((ticks pat ds (sessionStart pat now)).currentPhase)) ∧
    ticks p478 [4, 7, 8] (sessionStart p478 0)
      = { sessionStart p478 0 with cycles := 1 } ∧
    (ticks p478 [4, 7, 8] (sessionStart p478 0)).currentPhase = Phase.inhale := by
  refine ⟨?_, ?_, ?_⟩
  · intro pat now ds hn ht
    have htne := ne_of_gt ht
    have h0 : pat.durOf (sessionStart pat now).currentPhase ≠ 0 :=
      firstPos_dur pat htne
    have h1 := reach_dur pat hn htne ds (sessionStart pat now) h0
    exact lt_of_le_of_ne (durOf_nonneg pat hn _) (Ne.symm h1)
  · norm_num [ticks, countdownTick, phaseAdvance, tryPhases, p478,
      BreathPattern.durOf, sessionStart, firstPos, firstPosW]
  · norm_num [ticks, countdownTick, phaseAdvance, tryPhases, p478,
      BreathPattern.durOf, sessionStart, firstPos, firstPosW]

/-- Witness for `zero_phase_skipped` on the 4·7·8 pattern. -/
theorem zero_phase_skipped_w :
    Nonneg p478 ∧ 0 < total p478 ∧
    0 < p478.durOf ((ticks p478 [4, 7, 8] (sessionStart p478 0)).currentPhase) := by
  refine ⟨?_, ?_, ?_⟩
  · norm_num [Nonneg, p478]
  · norm_num [total, p478]
  · exact zero_phase_skipped.1 p478 0 [4, 7, 8]
      (by norm_num [Nonneg, p478]) (by norm_num [total, p478])

/-- Claim C2 (amended): the code has no automatic completion — no tick
(countdown or duration-tracker firing) ever changes `isActive`, there is no
`Completed` state, and `cyclesCompleted` keeps growing past the
`totalCycles = 10` target (here to 11) while the session stays active; a
`SessionSummary` is produced only by the explicit exit handler. -/
theorem no_auto_completion :
    (∀ (pat : BreathPattern) (δ : ℚ) (s : SessionState),
        (countdownTick pat δ s).isActive = s.isActive) ∧
    (∀ (now : ℤ) (s : SessionState), (durationTick now s).isActive = s.isActive) ∧
    totalCycles = 10 ∧
    (ticks box (List.replicate 44 4) (sessionStart box 0)).cycles = totalCycles + 1 ∧
    (ticks box (List.replicate 44 4) (sessionStart box 0)).isActive = true := by
  refine ⟨?_, fun now s => rfl, rfl, ?_, ?_⟩
  · intro pat δ s
    unfold countdownTick
    by_cases hc : s.timeRemaining - δ ≤ 0
    · rw [if_pos hc]
    · rw [if_neg hc]
  · norm_num [ticks, countdownTick, phaseAdvance, tryPhases, box, BreathPattern.durOf,
      sessionStart, firstPos, firstPosW, List.replicate, totalCycles]
  · norm_num [ticks, countdownTick, phaseAdvance, tryPhases, box, BreathPattern.durOf,
      sessionStart, firstPos, firstPosW, List.replicate]

/-- After 40 exact-boundary ticks the box session has completed its 10th
(target) cycle, yet it is still active and the next tick advances it into
`hold`: there is no `Completed` transition and ticks remain effective,
contradicting Claim C2 as stated. -/
theorem ticks_past_target_counter :
    (ticks box (List.replicate 40 4) (sessionStart box 0)).cycles = totalCycles ∧
    (ticks box (List.replicate 40 4) (sessionStart box 0)).isActive = true ∧
    (countdownTick box 4 (ticks box (List.replicate 40 4)
        (sessionStart box 0))).currentPhase = Phase.hold ∧
    countdownTick box 4 (ticks box (List.replicate 40 4) (sessionStart box 0))
      ≠ ticks box (List.replicate 40 4) (sessionStart box 0) := by
  have hval : ticks box (List.replicate 40 4) (sessionStart box 0)
      = { sessionStart box 0 with cycles := 10 } := by
    norm_num [ticks, countdownTick, phaseAdvance, tryPhases, box, BreathPattern.durOf,
      sessionStart, firstPos, firstPosW, List.replicate]
  rw [hval]
  refine ⟨rfl, rfl, ?_, ?_⟩
  · norm_num [countdownTick, phaseAdvance, tryPhases, box, BreathPattern.durOf,
      sessionStart, firstPos, firstPosW]
  · intro hcontra
    have hh := congrArg SessionState.currentPhase hcontra
    norm_num [countdownTick, phaseAdvance, tryPhases, box, BreathPattern.durOf,
      sessionStart, firstPos, firstPosW] at hh
    exact Phase.noConfusion hh

end Aora
